import Mathlib

/-!
Verification of the waitlist backend (`backend/main.py`).

The program is a single HTTP endpoint that appends a subscriber row to a
spreadsheet, asks an LLM for welcome-email content (parsed as JSON after
stripping optional markdown code fences), sends the email, and finally marks
the row as sent.

Strings are modelled as `List Char` (`Str`), so that Python's slicing,
`split`, `strip`, `startswith` and `in` operators become plain list
functions.  External services (the spreadsheet API, the LLM HTTP call, the
transactional-email API) are modelled by an environment `Env` recording the
outcome of each external call; everything the Python code itself computes is
embedded as executable Lean functions.
-/

/-- Strings of the Python program, modelled as lists of characters. -/
abbrev Str := List Char

/-- Convert a Lean string literal into the `List Char` model. -/
def strL (s : String) : Str := s.data

/-- Python `str.strip()` whitespace test (the ASCII whitespace characters
used by both `str.strip` and the `json` module). -/
def pyWs (c : Char) : Bool :=
  c = ' ' || c = '\t' || c = '\n' || c = '\r' || c = '\x0b' || c = '\x0c'

/-- Skip leading whitespace (used by `json.loads` between tokens). -/
def skipWs (s : Str) : Str := s.dropWhile pyWs

/-- Python `str.lstrip()`. -/
def pyStripLeft (s : Str) : Str := s.dropWhile pyWs

/-- Python `str.rstrip()`. -/
def pyStripRight (s : Str) : Str := (s.reverse.dropWhile pyWs).reverse

/-- Python `str.strip()`. -/
def pyStrip (s : Str) : Str := pyStripRight (pyStripLeft s)

/-- Python `sep in s` (substring containment), for the fence test
`"```" in raw` at line 142 of `main.py`. -/
def containsSub (sep : Str) : Str → Bool
  | [] => sep.isPrefixOf []
  | c :: rest => sep.isPrefixOf (c :: rest) || containsSub sep rest

/-- The characters strictly after the first occurrence of `sep`
(everything, if no occurrence).  Together with `beforeFirst` this gives
element 1 of Python's `raw.split(sep)`: Python scans left to right, so
`split[1]` is the text after the first occurrence of `sep` and before the
next occurrence found from that point (or the end of the string). -/
def afterFirst (sep : Str) : Str → Str
  | [] => []
  | c :: rest =>
    if sep.isPrefixOf (c :: rest) then (c :: rest).drop sep.length
    else afterFirst sep rest

/-- The characters strictly before the first occurrence of `sep`
(the whole string, if no occurrence). -/
def beforeFirst (sep : Str) : Str → Str
  | [] => []
  | c :: rest =>
    if sep.isPrefixOf (c :: rest) then []
    else c :: beforeFirst sep rest

/-- The markdown code-fence marker. -/
def fence : Str := strL "```"

/-- The optional tag after an opening fence. -/
def jsonTag : Str := strL "json"

/-- Lines 141–146 of `main.py`:

    if "```" in raw:
        parts = raw.split("```")
        raw = parts[1]
        if raw.startswith("json"):
            raw = raw[4:]

`parts[1]` is the text between the first occurrence of the fence and the
next one (or the end of the string). -/
def stripFence (raw : Str) : Str :=
  if containsSub fence raw then
    let r := beforeFirst fence (afterFirst fence raw)
    if jsonTag.isPrefixOf r then r.drop 4 else r
  else raw

/-! ## JSON values and `json.loads`

`json.loads` is modelled by a recursive-descent parser over `Str`.
Numbers keep their source lexeme (their numeric value plays no role in the
program).  Object members are kept in textual order. -/

inductive Json where
  | null
  | bool (b : Bool)
  | num (lexeme : Str)
  | str (s : Str)
  | arr (elems : List Json)
  | obj (members : List (Str × Json))

/-- The single-character string escapes accepted by `json.loads`. -/
def escChar (c : Char) : Option Char :=
  if c = '"' then some '"'
  else if c = '\\' then some '\\'
  else if c = '/' then some '/'
  else if c = 'b' then some (Char.ofNat 8)
  else if c = 'f' then some (Char.ofNat 12)
  else if c = 'n' then some '\n'
  else if c = 'r' then some '\r'
  else if c = 't' then some '\t'
  else none

/-- Hexadecimal digit value, for `\uXXXX` escapes. -/
def hexVal (c : Char) : Option Nat :=
  if '0' ≤ c ∧ c ≤ '9' then some (c.toNat - '0'.toNat)
  else if 'a' ≤ c ∧ c ≤ 'f' then some (c.toNat - 'a'.toNat + 10)
  else if 'A' ≤ c ∧ c ≤ 'F' then some (c.toNat - 'A'.toNat + 10)
  else none

/-- Parse a JSON string body (the opening quote already consumed); returns
the decoded content and the input after the closing quote.  Raw control
characters are rejected, as in `json.loads`' strict mode.  (`\uXXXX`
escapes are decoded code-point-wise; surrogate-pair recombination is not
modelled, and no claim depends on it.) -/
def parseStr : Str → Option (Str × Str)
  | [] => none
  | '"' :: rest => some ([], rest)
  | '\\' :: 'u' :: a :: b :: c :: d :: rest =>
    (match hexVal a, hexVal b, hexVal c, hexVal d, parseStr rest with
     | some ha, some hb, some hc, some hd, some (cont, r) =>
       some (Char.ofNat (((ha * 16 + hb) * 16 + hc) * 16 + hd) :: cont, r)
     | _, _, _, _, _ => none)
  | '\\' :: e :: rest =>
    (match escChar e, parseStr rest with
     | some ec, some (cont, r) => some (ec :: cont, r)
     | _, _ => none)
  | c :: rest =>
    if c.toNat < 32 then none
    else match parseStr rest with
      | some (cont, r) => some (c :: cont, r)
      | none => none

/-- A maximal run of decimal digits and the remainder. -/
def parseDigits (s : Str) : Str × Str :=
  (s.takeWhile Char.isDigit, s.dropWhile Char.isDigit)

/-- The integer part of a JSON number: `0`, or a nonzero digit followed by
digits (the `(?:0|[1-9]\d*)` part of the `json` module's number regex). -/
def parseIntPart : Str → Option (Str × Str)
  | '0' :: rest => some (['0'], rest)
  | c :: rest =>
    if c.isDigit then some (c :: (parseDigits rest).1, (parseDigits rest).2)
    else none
  | [] => none

/-- The optional fraction part `(\.\d+)?`: consumed only when a dot is
followed by at least one digit. -/
def parseFrac (s : Str) : Str × Str :=
  match s with
  | '.' :: rest =>
    if (parseDigits rest).1 = [] then ([], '.' :: rest)
    else ('.' :: (parseDigits rest).1, (parseDigits rest).2)
  | _ => ([], s)

/-- The optional exponent part `([eE][-+]?\d+)?`. -/
def parseExp (s : Str) : Str × Str :=
  match s with
  | c :: rest =>
    if c = 'e' ∨ c = 'E' then
      match rest with
      | d :: rest2 =>
        if d = '+' ∨ d = '-' then
          if (parseDigits rest2).1 = [] then ([], c :: d :: rest2)
          else (c :: d :: (parseDigits rest2).1, (parseDigits rest2).2)
        else
          if (parseDigits rest).1 = [] then ([], c :: rest)
          else (c :: (parseDigits rest).1, (parseDigits rest).2)
      | [] => ([], [c])
    else ([], c :: rest)
  | [] => ([], [])

/-- A JSON number without sign: integer part, optional fraction, optional
exponent; returns the lexeme and the remainder. -/
def parseNumPos (s : Str) : Option (Str × Str) :=
  match parseIntPart s with
  | none => none
  | some (i, r1) =>
    match parseFrac r1 with
    | (f, r2) =>
      match parseExp r2 with
      | (e, r3) => some (i ++ f ++ e, r3)

/-- A JSON number with optional leading minus sign. -/
def parseNum (s : Str) : Option (Str × Str) :=
  match s with
  | '-' :: rest =>
    (match parseNumPos rest with
     | some (lex, r) => some ('-' :: lex, r)
     | none => none)
  | _ => parseNumPos s

mutual

/-- Parse one JSON value (after optional whitespace); fuel bounds the
recursion depth and is always supplied large enough by `loads`. -/
def parseValue : Nat → Str → Option (Json × Str)
  | 0, _ => none
  | Nat.succ fuel, s =>
    match skipWs s with
    | 'n' :: 'u' :: 'l' :: 'l' :: rest => some (Json.null, rest)
    | 't' :: 'r' :: 'u' :: 'e' :: rest => some (Json.bool true, rest)
    | 'f' :: 'a' :: 'l' :: 's' :: 'e' :: rest => some (Json.bool false, rest)
    | '"' :: rest =>
      (match parseStr rest with
       | some (cont, r) => some (Json.str cont, r)
       | none => none)
    | '[' :: rest =>
      (match skipWs rest with
       | ']' :: r => some (Json.arr [], r)
       | r =>
         match parseItems fuel r with
         | some (xs, r2) => some (Json.arr xs, r2)
         | none => none)
    | '{' :: rest =>
      (match skipWs rest with
       | '}' :: r => some (Json.obj [], r)
       | r =>
         match parseMembers fuel r with
         | some (ms, r2) => some (Json.obj ms, r2)
         | none => none)
    | s1 =>
      match parseNum s1 with
      | some (lex, r) => some (Json.num lex, r)
      | none => none

/-- Parse the items of a nonempty JSON array, up to and including the
closing bracket. -/
def parseItems : Nat → Str → Option (List Json × Str)
  | 0, _ => none
  | Nat.succ fuel, s =>
    match parseValue fuel s with
    | none => none
    | some (v, r) =>
      match skipWs r with
      | ',' :: r2 =>
        (match parseItems fuel r2 with
         | some (xs, r3) => some (v :: xs, r3)
         | none => none)
      | ']' :: r2 => some ([v], r2)
      | _ => none

/-- Parse the members of a nonempty JSON object, up to and including the
closing brace. -/
def parseMembers : Nat → Str → Option (List (Str × Json) × Str)
  | 0, _ => none
  | Nat.succ fuel, s =>
    match skipWs s with
    | '"' :: rest =>
      (match parseStr rest with
       | none => none
       | some (k, r) =>
         match skipWs r with
         | ':' :: r2 =>
           (match parseValue fuel r2 with
            | none => none
            | some (v, r3) =>
              match skipWs r3 with
              | ',' :: r4 =>
                (match parseMembers fuel r4 with
                 | some (ms, r5) => some ((k, v) :: ms, r5)
                 | none => none)
              | '}' :: r4 => some ([(k, v)], r4)
              | _ => none)
         | _ => none)
    | _ => none

end

/-- `json.loads`: parse one JSON document, allowing surrounding whitespace
and rejecting any trailing data.  The fuel `2 * length + 2` exceeds the
number of parser steps possible on the input (every two steps consume at
least one character). -/
def loads (s : Str) : Option Json :=
  match parseValue (2 * s.length + 2) s with
  | some (v, rest) => if skipWs rest = [] then some v else none
  | none => none

/-- Lines 139–148 of `main.py`: the reply text is stripped, the optional
code fence and `json` tag are removed, and the result is parsed as JSON.

    raw = response.json()["choices"][0]["message"]["content"].strip()
    if "```" in raw: ...
    return json.loads(raw.strip())
-/
def parseLLM (reply : Str) : Option Json :=
  loads (pyStrip (stripFence (pyStrip reply)))

example : parseLLM (strL "\x7b\"a\": 1\x7d") = some (Json.obj [(strL "a", Json.num (strL "1"))]) := by rfl
example : parseLLM (strL "```json\n\x7b\"a\": 1\x7d\n```") = some (Json.obj [(strL "a", Json.num (strL "1"))]) := by rfl
example : parseLLM (strL "```\n[1, true, null]\n```") = some (Json.arr [Json.num (strL "1"), Json.bool true, Json.null]) := by rfl
example : parseLLM (strL "\x7b\"a\": \"x``` y\"\x7d") = none := by rfl
example : loads (strL "\x7b\"a\": \"x``` y\"\x7d") = some (Json.obj [(strL "a", Json.str (strL "x``` y"))]) := by rfl
example : loads (strL "[\"```\", 1, \"```\"]") =
    some (Json.arr [Json.str (strL "```"), Json.num (strL "1"), Json.str (strL "```")]) := by rfl
example : parseLLM (strL "[\"```\", 1, \"```\"]") = some (Json.str (strL ", 1, ")) := by rfl
example : parseLLM (strL "```[\"```\", 1, \"```\"]```") = none := by rfl

/-! ## The spreadsheet store

A worksheet is a list of rows, each a list of cell strings; indices are
1-based as in `gspread`. -/

abbrev Row := List Str
abbrev Sheet := List Row

/-- `sheet.row_values(i)` (1-based; an out-of-range row reads as empty). -/
def row_values (sheet : Sheet) (i : Nat) : Row := sheet.getD (i - 1) []

/-- `sheet.insert_row(row, index=i)` (1-based: the new row becomes row `i`). -/
def insert_row (sheet : Sheet) (row : Row) (i : Nat) : Sheet :=
  sheet.take (i - 1) ++ row :: sheet.drop (i - 1)

/-- The header row `["Email", "Timestamp (UTC)", "Sent"]`. -/
def headerRow : Row := [strL "Email", strL "Timestamp (UTC)", strL "Sent"]

/-- Lines 74–78 of `main.py`:

    first_row = sheet.row_values(1)
    if not first_row or first_row[0] != "Email":
        sheet.insert_row(["Email", "Timestamp (UTC)", "Sent"], index=1)

`not first_row or first_row[0] != "Email"` is exactly
`first_row.head? ≠ some "Email"`. -/
def ensure_header (sheet : Sheet) : Sheet :=
  if (row_values sheet 1).head? = some (strL "Email") then sheet
  else insert_row sheet headerRow 1

/-- The current UTC time, as far as `strftime("%Y-%m-%d %H:%M:%S")` reads it. -/
structure DateTime where
  year : Nat
  month : Nat
  day : Nat
  hour : Nat
  minute : Nat
  second : Nat

/-- Left-pad a digit string with zeros to width `w`. -/
def padZero (w : Nat) (s : Str) : Str := List.replicate (w - s.length) '0' ++ s

/-- A zero-padded two-digit field (`%m`, `%d`, `%H`, `%M`, `%S`). -/
def fmt2 (n : Nat) : Str := padZero 2 (Nat.toDigits 10 n)

/-- A zero-padded four-digit field (`%Y`). -/
def fmt4 (n : Nat) : Str := padZero 4 (Nat.toDigits 10 n)

/-- `datetime.utcnow().strftime("%Y-%m-%d %H:%M:%S")`. -/
def strftime_ymd_hms (t : DateTime) : Str :=
  fmt4 t.year ++ strL "-" ++ fmt2 t.month ++ strL "-" ++ fmt2 t.day ++
  strL " " ++ fmt2 t.hour ++ strL ":" ++ fmt2 t.minute ++ strL ":" ++ fmt2 t.second

/-- Lines 81–90 of `main.py`: ensure the header, append
`[email, timestamp, ""]`, and return `len(sheet.get_all_values())` — the new
total row count.  The wall clock is passed in as `now`. -/
def save_email_to_sheet (sheet : Sheet) (email : Str) (now : DateTime) : Sheet × Nat :=
  let s1 := ensure_header sheet
  let s2 := s1 ++ [[email, strftime_ymd_hms now, strL ""]]
  (s2, s2.length)

/-- `sheet.update_cell(r, c, v)` (1-based row and column); out-of-range
coordinates leave the sheet unchanged. -/
def update_cell (sheet : Sheet) (r c : Nat) (v : Str) : Sheet :=
  sheet.set (r - 1) ((sheet.getD (r - 1) []).set (c - 1) v)

/-- Lines 93–96 of `main.py`: put a tick in the Sent column (column 3). -/
def mark_row_sent (sheet : Sheet) (row_index : Nat) : Sheet :=
  update_cell sheet row_index 3 (strL "✓")

/-- Read a cell (1-based row and column; out-of-range reads as ""). -/
def cellValue (sheet : Sheet) (r c : Nat) : Str :=
  (sheet.getD (r - 1) []).getD (c - 1) []

/-! ## The external-call environment and the subscribe handler -/

/-- Outcomes of the external calls made while serving one request.  Each
field records what the corresponding remote service does if and when it is
called; exceptions carry their message string. -/
structure Env where
  /-- Sheet contents when the request arrives. -/
  sheet0 : Sheet
  /-- The current UTC time. -/
  now : DateTime
  /-- Whether the Sheets API raises inside `save_email_to_sheet`. -/
  appendFails : Bool
  /-- Message of that exception. -/
  appendErr : Str
  /-- The OpenRouter call: `.error` for a `requests` exception or a
  `raise_for_status` failure, `.ok reply` for the reply text
  `response.json()["choices"][0]["message"]["content"]`. -/
  llmResult : Except Str Str
  /-- The Brevo `send_transac_email` call, if reached. -/
  sendApi : Except Str Unit
  /-- Whether the Sheets API raises inside `mark_row_sent`. -/
  markFails : Bool
  /-- Message of that exception. -/
  markErr : Str

/-- Lines 100–148 of `main.py` (`generate_email_content`): the HTTP call is
the environment's `llmResult`; its reply text is fence-stripped and parsed
by `parseLLM`.  A JSON parse failure raises `json.JSONDecodeError`. -/
def generate_email_content (env : Env) : Except Str Json :=
  match env.llmResult with
  | .error e => .error e
  | .ok reply =>
    match parseLLM reply with
    | some v => .ok v
    | none => .error (strL "Expecting value (json.decoder.JSONDecodeError)")

/-- Python dict lookup on the object produced by `json.loads`: duplicate
keys were overwritten in order, so the last binding wins. -/
def lookupLast : List (Str × Json) → Str → Option Json
  | [], _ => none
  | kv :: rest, k =>
    match lookupLast rest k with
    | some v => some v
    | none => if kv.1 = k then some kv.2 else none

/-- Python `content[k]` for a string key `k`: succeeds only when `content`
is a dict containing `k`; a missing key raises `KeyError` and a non-dict
raises `TypeError` (both are just exceptions to the caller). -/
def pySubscript (content : Json) (k : Str) : Option Json :=
  match content with
  | Json.obj kvs => lookupLast kvs k
  | _ => none

/-- Lines 152–200 of `main.py` (`send_welcome_email`): the HTML template
reads `content['heading']`, `content['body']`, `content['unsubscribe_note']`
in that order, then the API call reads `content["subject"]`; any of these
may raise.  The Brevo API call itself is the environment's `sendApi`. -/
def send_welcome_email (env : Env) (content : Json) : Except Str Unit :=
  match pySubscript content (strL "heading") with
  | none => .error (strL "KeyError: heading")
  | some _ =>
    match pySubscript content (strL "body") with
    | none => .error (strL "KeyError: body")
    | some _ =>
      match pySubscript content (strL "unsubscribe_note") with
      | none => .error (strL "KeyError: unsubscribe_note")
      | some _ =>
        match pySubscript content (strL "subject") with
        | none => .error (strL "KeyError: subject")
        | some _ => env.sendApi

/-- An HTTP response from the `/subscribe` handler: either a 200 with a
JSON body of string fields, or an `HTTPException` with a status code and a
detail message. -/
inductive SubscribeResponse where
  | ok (body : List (Str × Str))
  | httpError (statusCode : Nat) (detail : Str)

/-- The success body `{"status": "success", "message": "Subscribed successfully!"}`. -/
def successBody : List (Str × Str) :=
  [(strL "status", strL "success"), (strL "message", strL "Subscribed successfully!")]

/-- What one request did: the HTTP response, the final sheet contents, and
whether the generation and delivery calls were attempted at all. -/
structure Outcome where
  response : SubscribeResponse
  sheet : Sheet
  generationAttempted : Bool
  sendAttempted : Bool

/-- Lines 209–240 of `main.py`: the four-step subscribe pipeline.

    1. save_email_to_sheet   — on exception: 500 "Sheet error: ..."
    2. generate_email_content — on exception: 500 "LLM error: ..."
    3. send_welcome_email     — on exception: 500 "Email send error: ..."
    4. mark_row_sent          — on exception: warning only, still success
-/
def subscribe (env : Env) (email : Str) : Outcome :=
  if env.appendFails then
    { response := .httpError 500 (strL "Sheet error: " ++ env.appendErr)
      sheet := env.sheet0
      generationAttempted := false
      sendAttempted := false }
  else
    let saved := save_email_to_sheet env.sheet0 email env.now
    match generate_email_content env with
    | .error e =>
      { response := .httpError 500 (strL "LLM error: " ++ e)
        sheet := saved.1
        generationAttempted := true
        sendAttempted := false }
    | .ok content =>
      match send_welcome_email env content with
      | .error e =>
        { response := .httpError 500 (strL "Email send error: " ++ e)
          sheet := saved.1
          generationAttempted := true
          sendAttempted := true }
      | .ok _ =>
        { response := .ok successBody
          sheet := if env.markFails then saved.1 else mark_row_sent saved.1 saved.2
          generationAttempted := true
          sendAttempted := true }

/-- Whether a JSON value is an object (a Python dict after `json.loads`). -/
def isJsonObj : Json → Bool
  | Json.obj _ => true
  | _ => false

/-! Concrete data used to exercise the model on closed inputs. -/

def sampleSheet : Sheet :=
  [[strL "Email", strL "Timestamp (UTC)", strL "Sent"],
   [strL "a@b.c", strL "2025-01-02 03:04:05", strL ""]]

def sampleTime : DateTime := ⟨2025, 3, 4, 5, 6, 7⟩

/-- A well-formed LLM reply with all four expected keys. -/
def goodReply : Str :=
  strL "\x7b\"subject\":\"s\",\"heading\":\"h\",\"body\":\"b\",\"unsubscribe_note\":\"u\"\x7d"

/-- The parse of `goodReply`. -/
def goodContent : Json :=
  Json.obj [(strL "subject", Json.str (strL "s")), (strL "heading", Json.str (strL "h")),
    (strL "body", Json.str (strL "b")), (strL "unsubscribe_note", Json.str (strL "u"))]

def envAppendFail : Env :=
  ⟨sampleSheet, sampleTime, true, strL "quota exceeded", Except.ok goodReply, Except.ok (),
    false, strL ""⟩

def envLLMFail : Env :=
  ⟨sampleSheet, sampleTime, false, strL "", Except.error (strL "HTTP 500"), Except.ok (),
    false, strL ""⟩

def envSendFail : Env :=
  ⟨sampleSheet, sampleTime, false, strL "", Except.ok goodReply,
    Except.error (strL "brevo down"), false, strL ""⟩

def envMarkFail : Env :=
  ⟨sampleSheet, sampleTime, false, strL "", Except.ok goodReply, Except.ok (),
    true, strL "mark failed"⟩

/-- An environment whose LLM reply is a JSON object missing all expected keys. -/
def envMissingKeys : Env :=
  ⟨sampleSheet, sampleTime, false, strL "", Except.ok (strL "\x7b\"foo\": 1\x7d"),
    Except.ok (), false, strL ""⟩

/-- An environment whose LLM reply is a JSON array rather than an object. -/
def envArrayReply : Env :=
  ⟨sampleSheet, sampleTime, false, strL "", Except.ok (strL "[1, 2]"), Except.ok (),
    false, strL ""⟩

/-! ## Helper lemmas: prefixes, containment, stripping -/

/-- The backtick character, written by code point. -/
def btick : Char := Char.ofNat 96

lemma fence_eq : fence = [btick, btick, btick] := rfl

lemma isPrefixOf_iff : ∀ (u s : Str), u.isPrefixOf s = true ↔ ∃ t, s = u ++ t
  | [], s => by simp [List.isPrefixOf]
  | c :: u, [] => by simp [List.isPrefixOf]
  | c :: u, d :: s => by
    simp only [List.isPrefixOf, Bool.and_eq_true, beq_iff_eq]
    constructor
    · rintro ⟨rfl, h⟩
      obtain ⟨t, rfl⟩ := (isPrefixOf_iff u s).mp h
      exact ⟨t, rfl⟩
    · rintro ⟨t, ht⟩
      injection ht with h1 h2
      exact ⟨h1.symm, (isPrefixOf_iff u s).mpr ⟨t, h2⟩⟩

lemma containsSub_iff : ∀ (sep s : Str), containsSub sep s = true ↔ ∃ u v, s = u ++ sep ++ v
  | sep, [] => by
    rw [containsSub, isPrefixOf_iff]
    constructor
    · rintro ⟨t, ht⟩
      exact ⟨[], t, by simpa using ht⟩
    · rintro ⟨u, v, huv⟩
      have h2 : u ++ sep ++ v = [] := huv.symm
      rw [List.append_eq_nil, List.append_eq_nil] at h2
      exact ⟨[], by simp [h2.1.2]⟩
  | sep, c :: rest => by
    rw [containsSub, Bool.or_eq_true, isPrefixOf_iff, containsSub_iff sep rest]
    constructor
    · rintro (⟨t, ht⟩ | ⟨u, v, hv⟩)
      · exact ⟨[], t, by simpa using ht⟩
      · exact ⟨c :: u, v, by simp [hv]⟩
    · rintro ⟨u, v, huv⟩
      cases u with
      | nil => exact Or.inl ⟨v, by simpa using huv⟩
      | cons x u' =>
        injection huv with h1 h2
        exact Or.inr ⟨u', v, h2⟩

lemma contains_of_middle (sep u v : Str) : containsSub sep (u ++ sep ++ v) = true :=
  (containsSub_iff sep _).mpr ⟨u, v, rfl⟩

lemma containsSub_extend (sep x y s : Str) (h : containsSub sep s = true) :
    containsSub sep (x ++ s ++ y) = true := by
  obtain ⟨u, v, rfl⟩ := (containsSub_iff sep s).mp h
  exact (containsSub_iff sep _).mpr ⟨x ++ u, v ++ y, by simp [List.append_assoc]⟩

lemma pyStripLeft_decomp (s : Str) : s = s.takeWhile pyWs ++ pyStripLeft s :=
  (List.takeWhile_append_dropWhile pyWs s).symm

lemma pyStripRight_decomp (s : Str) :
    s = pyStripRight s ++ (s.reverse.takeWhile pyWs).reverse := by
  have h := congrArg List.reverse (List.takeWhile_append_dropWhile pyWs s.reverse)
  rw [List.reverse_append, List.reverse_reverse] at h
  exact h.symm

lemma pyStrip_decomp (s : Str) : ∃ x y, s = x ++ pyStrip s ++ y := by
  refine ⟨s.takeWhile pyWs, ((pyStripLeft s).reverse.takeWhile pyWs).reverse, ?_⟩
  conv_lhs => rw [pyStripLeft_decomp s]
  rw [pyStrip, List.append_assoc]
  congr 1
  exact pyStripRight_decomp (pyStripLeft s)

lemma containsSub_pyStrip (sep s : Str) (h : containsSub sep s = false) :
    containsSub sep (pyStrip s) = false := by
  by_contra hc
  rw [Bool.not_eq_false] at hc
  obtain ⟨x, y, hxy⟩ := pyStrip_decomp s
  have h2 := containsSub_extend sep x y _ hc
  rw [← hxy, h] at h2
  exact Bool.noConfusion h2

lemma dropWhile_head_false {p : Char → Bool} :
    ∀ (l : Str) (c : Char) (t : Str), l.dropWhile p = c :: t → p c = false
  | [], c, t => by simp [List.dropWhile]
  | a :: l, c, t => by
    rw [List.dropWhile_cons]
    by_cases h : p a = true
    · rw [if_pos h]; exact dropWhile_head_false l c t
    · rw [if_neg h]
      intro he
      injection he with h1 h2
      subst h1
      simpa using h

lemma pyStripLeft_of_head {s : Str} {c : Char} (h : s.head? = some c) (hc : pyWs c = false) :
    pyStripLeft s = s := by
  cases s with
  | nil => cases h
  | cons a t =>
    injection h with h1
    subst h1
    rw [pyStripLeft, List.dropWhile_cons, if_neg (by simp [hc])]

lemma pyStripRight_of_getLast {s : Str} {c : Char} (h : s.getLast? = some c) (hc : pyWs c = false) :
    pyStripRight s = s := by
  have hr : s.reverse.head? = some c := by rw [List.head?_reverse]; exact h
  cases hrv : s.reverse with
  | nil => rw [hrv] at hr; cases hr
  | cons a t =>
    rw [hrv] at hr
    injection hr with h1
    subst h1
    rw [pyStripRight, hrv, List.dropWhile_cons, if_neg (by simp [hc]), ← hrv, List.reverse_reverse]

lemma pyStrip_eq_self {s : Str} {c d : Char} (hh : s.head? = some c) (hc : pyWs c = false)
    (hl : s.getLast? = some d) (hd : pyWs d = false) : pyStrip s = s := by
  rw [pyStrip, pyStripLeft_of_head hh hc, pyStripRight_of_getLast hl hd]

lemma pyStrip_cons_ws {c : Char} (hc : pyWs c = true) (s : Str) :
    pyStrip (c :: s) = pyStrip s := by
  rw [pyStrip, pyStrip, pyStripLeft, pyStripLeft, List.dropWhile_cons, if_pos hc]

lemma pyStrip_head {s : Str} {c : Char} (h : s.head? = some c) (hc : pyWs c = false) :
    (pyStrip s).head? = some c := by
  rw [pyStrip, pyStripLeft_of_head h hc]
  rcases hsr : pyStripRight s with _ | ⟨a, t⟩
  · exfalso
    have hdec := pyStripRight_decomp s
    rw [hsr, List.nil_append] at hdec
    have hcm : c ∈ s := by
      cases s with
      | nil => cases h
      | cons a' t' => injection h with h1; rw [← h1]; exact List.mem_cons_self a' t'
    rw [hdec, List.mem_reverse] at hcm
    exact absurd (List.mem_takeWhile_imp hcm) (by simp [hc])
  · have hdec := pyStripRight_decomp s
    rw [hsr] at hdec
    rw [hdec, List.head?_append_of_ne_nil (a :: t) (by simp)] at h
    exact h

lemma pyStrip_getLast {s : Str} {c : Char} (h : s.getLast? = some c) (hc : pyWs c = false) :
    (pyStrip s).getLast? = some c := by
  have h1 : (pyStripLeft s).getLast? = some c := by
    rcases hsl : pyStripLeft s with _ | ⟨a, t⟩
    · exfalso
      have hdec := pyStripLeft_decomp s
      rw [hsl, List.append_nil] at hdec
      have hcm : c ∈ s := by
        rcases List.eq_nil_or_concat' s with rfl | ⟨L, b, rfl⟩
        · cases h
        · simp only [List.getLast?_concat, Option.some.injEq] at h
          rw [← h]
          simp
      rw [hdec] at hcm
      exact absurd (List.mem_takeWhile_imp hcm) (by simp [hc])
    · have hdec := pyStripLeft_decomp s
      rw [hsl] at hdec
      rw [hdec, List.getLast?_append_of_ne_nil _ (by simp : (a :: t : Str) ≠ [])] at h
      exact h
  rw [pyStrip, pyStripRight_of_getLast h1 hc]
  exact h1

lemma pyStrip_idem (s : Str) : pyStrip (pyStrip s) = pyStrip s := by
  rcases hps : pyStrip s with _ | ⟨a, t⟩
  · rfl
  · have hps' : pyStripRight (pyStripLeft s) = a :: t := hps
    obtain ⟨j, hX⟩ : ∃ j, pyStripLeft s = (a :: t) ++ j :=
      ⟨_, by rw [← hps']; exact pyStripRight_decomp (pyStripLeft s)⟩
    have hhead : pyWs a = false := by
      have h0 : (pyStripLeft s).dropWhile pyWs = pyStripLeft s := by
        rcases hdw : pyStripLeft s with _ | ⟨c0, t0⟩
        · rfl
        · rw [List.dropWhile_cons, if_neg (by simp [dropWhile_head_false s c0 t0 hdw])]
      have hX' : (pyStripLeft s).dropWhile pyWs = a :: (t ++ j) := by
        rw [h0, hX, List.cons_append]
      exact dropWhile_head_false _ a _ hX'
    have hlast : ∃ d, (a :: t).getLast? = some d ∧ pyWs d = false := by
      have hrev : (pyStrip s).getLast? = ((pyStripLeft s).reverse.dropWhile pyWs).head? := by
        rw [pyStrip, pyStripRight, List.getLast?_reverse]
      rcases hd : ((pyStripLeft s).reverse.dropWhile pyWs).head? with _ | d
      · rw [hps] at hrev
        rw [hd] at hrev
        rcases List.eq_nil_or_concat' t with rfl | ⟨L, b, rfl⟩
        · simp at hrev
        · rw [show a :: (L ++ [b]) = (a :: L) ++ [b] from rfl, List.getLast?_concat] at hrev
          simp at hrev
      · refine ⟨d, by rw [← hps, hrev, hd], ?_⟩
        rcases hdw : (pyStripLeft s).reverse.dropWhile pyWs with _ | ⟨d', t'⟩
        · rw [hdw] at hd; cases hd
        · rw [hdw] at hd
          injection hd with h1
          subst h1
          exact dropWhile_head_false _ d' _ hdw
    obtain ⟨d, hd1, hd2⟩ := hlast
    rw [← hps] at hd1
    have hfin := pyStrip_eq_self (s := pyStrip s) (c := a) (d := d) (by rw [hps]; rfl) hhead hd1 hd2
    rw [← hps]
    exact hfin

/-! ## Fence decomposition lemmas -/

lemma noStraddle (b t : Str) (hc : containsSub fence b = false)
    (hl : b.getLast? ≠ some btick) (hb : b ≠ []) :
    fence.isPrefixOf (b ++ t) = false := by
  by_contra hp
  rw [Bool.not_eq_false, isPrefixOf_iff] at hp
  obtain ⟨r, hr⟩ := hp
  rw [fence_eq] at hr
  rcases b with _ | ⟨x, b'⟩
  · exact hb rfl
  rcases b' with _ | ⟨y, b''⟩
  · injection hr with h1 _
    exact hl (by simp [h1])
  rcases b'' with _ | ⟨z, b'''⟩
  · injection hr with h1 hr2
    injection hr2 with h2 _
    exact hl (by simp [h2])
  · injection hr with h1 hr2
    injection hr2 with h2 hr3
    injection hr3 with h3 _
    subst h1; subst h2; subst h3
    rw [containsSub, fence_eq] at hc
    simp [List.isPrefixOf] at hc

lemma afterFirst_fence_decomp : ∀ (a rest : Str), containsSub fence a = false →
    a.getLast? ≠ some btick → afterFirst fence (a ++ (fence ++ rest)) = rest := by
  intro a
  induction a with
  | nil =>
    intro rest _ _
    rw [List.nil_append]
    rw [fence_eq]
    simp [afterFirst, List.isPrefixOf]
  | cons x a' ih =>
    intro rest hc hl
    have hnp : fence.isPrefixOf ((x :: a') ++ (fence ++ rest)) = false :=
      noStraddle (x :: a') (fence ++ rest) hc hl (by simp)
    rw [List.cons_append] at hnp
    rw [List.cons_append, afterFirst, if_neg (by simp [hnp])]
    have hc' : containsSub fence a' = false := by
      rw [containsSub, Bool.or_eq_false_iff] at hc
      exact hc.2
    have hl' : a'.getLast? ≠ some btick := by
      rcases a' with _ | ⟨y, a''⟩
      · simp
      · rw [← List.getLast?_cons_cons (a := x)]
        exact hl
    exact ih rest hc' hl'

lemma beforeFirst_fence_decomp : ∀ (b c : Str), containsSub fence b = false →
    b.getLast? ≠ some btick → beforeFirst fence (b ++ (fence ++ c)) = b := by
  intro b
  induction b with
  | nil =>
    intro c _ _
    rw [List.nil_append]
    rw [fence_eq]
    simp [beforeFirst, List.isPrefixOf]
  | cons x b' ih =>
    intro c hc hl
    have hnp : fence.isPrefixOf ((x :: b') ++ (fence ++ c)) = false :=
      noStraddle (x :: b') (fence ++ c) hc hl (by simp)
    rw [List.cons_append] at hnp
    rw [List.cons_append, beforeFirst, if_neg (by simp [hnp])]
    have hc' : containsSub fence b' = false := by
      rw [containsSub, Bool.or_eq_false_iff] at hc
      exact hc.2
    have hl' : b'.getLast? ≠ some btick := by
      rcases b' with _ | ⟨y, b''⟩
      · simp
      · rw [← List.getLast?_cons_cons (a := x)]
        exact hl
    rw [ih c hc' hl']

/-! ## Consumed-input shape of the JSON parser

Whenever a parser component succeeds, the input splits as the consumed part
followed by the returned remainder, and the last consumed character is a
closing token (never a backtick).  This is what makes the code-fence
stripping in `generate_email_content` compatible with fenced JSON payloads. -/

lemma parseStr_split (s : Str) :
    ∀ cont rest, parseStr s = some (cont, rest) → ∃ q, s = q ++ '"' :: rest := by
  induction s using parseStr.induct <;> intro cont rest h <;> simp only [parseStr] at h
  case case1 => exact absurd h (by simp)
  case case2 rst =>
    injection h with h1
    injection h1 with h1a h1b
    exact ⟨[], by simp [h1b]⟩
  case case3 a b c d rst ha hb hc hd cnt r hp hd4 hd3 hd2 hd1 ih =>
    simp only [hd1, hd2, hd3, hd4, hp] at h
    injection h with h1
    injection h1 with h1a h1b
    obtain ⟨q, hq⟩ := ih cnt r hp
    subst h1b
    exact ⟨'\\' :: 'u' :: a :: b :: c :: d :: q, by simp [hq]⟩
  case case4 => exact absurd h (by simp)
  case case5 e rst hne ec cnt r hp hesc ih =>
    simp only [hesc, hp] at h
    injection h with h1
    injection h1 with h1a h1b
    obtain ⟨q, hq⟩ := ih cnt r hp
    subst h1b
    exact ⟨'\\' :: e :: q, by simp [hq]⟩
  case case6 => exact absurd h (by simp)
  case case7 c rst hq hu he hlt =>
    rw [if_pos hlt] at h
    exact absurd h (by simp)
  case case8 c rst hq hu he hge cnt r hp ih =>
    rw [if_neg hge, hp] at h
    injection h with h1
    injection h1 with h1a h1b
    obtain ⟨q, hqq⟩ := ih cnt r hp
    subst h1b
    exact ⟨c :: q, by simp [hqq]⟩
  case case9 c rst hq hu he hge hp ih =>
    rw [if_neg hge, hp] at h
    exact absurd h (by simp)

lemma parseDigits_split (s : Str) : s = (parseDigits s).1 ++ (parseDigits s).2 :=
  (List.takeWhile_append_dropWhile Char.isDigit s).symm

lemma parseDigits_last (s : Str) (h : (parseDigits s).1 ≠ []) :
    ∃ q d, (parseDigits s).1 = q ++ [d] ∧ d.isDigit = true := by
  rcases List.eq_nil_or_concat' (parseDigits s).1 with h0 | ⟨L, b, hb⟩
  · exact absurd h0 h
  · refine ⟨L, b, hb, ?_⟩
    have hm : b ∈ (parseDigits s).1 := by rw [hb]; simp
    exact List.mem_takeWhile_imp hm

lemma parseIntPart_split (s i r : Str) (h : parseIntPart s = some (i, r)) :
    s = i ++ r ∧ ∃ q d, i = q ++ [d] ∧ d.isDigit = true := by
  rw [parseIntPart.eq_def] at h
  split at h
  · injection h with h1
    injection h1 with h1a h1b
    subst h1a; subst h1b
    exact ⟨rfl, [], '0', rfl, by decide⟩
  · split at h
    · injection h with h1
      injection h1 with h1a h1b
      subst h1a; subst h1b
      constructor
      · rw [List.cons_append, ← parseDigits_split]
      · rename_i c rest _ hdig
        rcases hpd : (parseDigits rest).1 with _ | ⟨x, xs⟩
        · exact ⟨[], c, by simp [hpd], hdig⟩
        · obtain ⟨q, d, hqd, hdd⟩ := parseDigits_last rest (by rw [hpd]; simp)
          exact ⟨c :: q, d, by rw [hpd.symm.trans hqd]; simp, hdd⟩
    · exact absurd h (by simp)
  · exact absurd h (by simp)

lemma parseFrac_split (s f r2 : Str) (h : parseFrac s = (f, r2)) :
    s = f ++ r2 ∧ (f = [] ∨ ∃ q d, f = q ++ [d] ∧ d.isDigit = true) := by
  rw [parseFrac.eq_def] at h
  split at h
  · rename_i rest
    split at h
    · injection h with h1 h2
      subst h1; subst h2
      exact ⟨by simp, Or.inl rfl⟩
    · rename_i hne
      injection h with h1 h2
      subst h1; subst h2
      constructor
      · rw [List.cons_append, ← parseDigits_split]
      · obtain ⟨q, d, hqd, hdd⟩ := parseDigits_last rest hne
        exact Or.inr ⟨'.' :: q, d, by simp [hqd], hdd⟩
  · injection h with h1 h2
    subst h1; subst h2
    exact ⟨by simp, Or.inl rfl⟩

lemma parseExp_split (s e3 r3 : Str) (h : parseExp s = (e3, r3)) :
    s = e3 ++ r3 ∧ (e3 = [] ∨ ∃ q d, e3 = q ++ [d] ∧ d.isDigit = true) := by
  rw [parseExp.eq_def] at h
  split at h
  · rename_i c rest
    split at h
    · split at h
      · rename_i d rest2
        split at h
        · split at h
          · injection h with h1 h2
            subst h1; subst h2
            exact ⟨by simp, Or.inl rfl⟩
          · rename_i hne
            injection h with h1 h2
            subst h1; subst h2
            refine ⟨?_, ?_⟩
            · rw [List.cons_append, List.cons_append, ← parseDigits_split]
            · obtain ⟨q, e, hqd, hdd⟩ := parseDigits_last rest2 hne
              exact Or.inr ⟨c :: d :: q, e, by rw [hqd]; simp, hdd⟩
        · split at h
          · injection h with h1 h2
            subst h1; subst h2
            exact ⟨by simp, Or.inl rfl⟩
          · rename_i hne
            injection h with h1 h2
            subst h1; subst h2
            refine ⟨?_, ?_⟩
            · rw [List.cons_append, ← parseDigits_split]
            · obtain ⟨q, e, hqd, hdd⟩ := parseDigits_last (d :: rest2) hne
              exact Or.inr ⟨c :: q, e, by rw [hqd]; simp, hdd⟩
      · injection h with h1 h2
        subst h1; subst h2
        exact ⟨by simp, Or.inl rfl⟩
    · injection h with h1 h2
      subst h1; subst h2
      exact ⟨by simp, Or.inl rfl⟩
  · injection h with h1 h2
    subst h1; subst h2
    exact ⟨by simp, Or.inl rfl⟩

lemma parseNumPos_split (s lex r : Str) (h : parseNumPos s = some (lex, r)) :
    s = lex ++ r ∧ ∃ q d, lex = q ++ [d] ∧ d.isDigit = true := by
  rw [parseNumPos.eq_def] at h
  split at h
  · exact absurd h (by simp)
  · rename_i i r1 hint
    split at h
    rename_i f r2 hfrac
    split at h
    rename_i e r3 hexp
    injection h with h1
    injection h1 with h1a h1b
    obtain ⟨hs1, qi, di, hqi, hdi⟩ := parseIntPart_split s i r1 hint
    obtain ⟨hs2, hf⟩ := parseFrac_split r1 f r2 hfrac
    obtain ⟨hs3, he⟩ := parseExp_split r2 e r3 hexp
    constructor
    · rw [← h1a, ← h1b, hs1, hs2, hs3]
      simp [List.append_assoc]
    · rcases he with he0 | ⟨qe, de, hqe, hde⟩
      · rcases hf with hf0 | ⟨qf, df, hqf, hdf⟩
        · exact ⟨qi, di, by rw [← h1a, hf0, he0, List.append_nil, List.append_nil, hqi], hdi⟩
        · exact ⟨i ++ qf, df, by rw [← h1a, he0, List.append_nil, hqf, List.append_assoc], hdf⟩
      · exact ⟨i ++ f ++ qe, de, by rw [← h1a, hqe]; simp [List.append_assoc], hde⟩

lemma parseNum_split (s lex r : Str) (h : parseNum s = some (lex, r)) :
    ∃ q d, s = q ++ d :: r ∧ d.isDigit = true := by
  rw [parseNum.eq_def] at h
  split at h
  · rename_i rest
    split at h
    · rename_i lex' r' hpos
      injection h with h1
      injection h1 with h1a h1b
      obtain ⟨hs, q, d, hqd, hdd⟩ := parseNumPos_split rest lex' r' hpos
      refine ⟨'-' :: q, d, ?_, hdd⟩
      rw [List.cons_append, ← h1b, hs, hqd]
      simp
    · exact absurd h (by simp)
  · obtain ⟨hs, q, d, hqd, hdd⟩ := parseNumPos_split s lex r h
    refine ⟨q, d, ?_, hdd⟩
    rw [hs, hqd]
    simp

lemma assemble_tw (s q2 : Str) (c : Char) (rest : Str)
    (h : skipWs s = q2 ++ c :: rest) : s = (s.takeWhile pyWs ++ q2) ++ c :: rest := by
  have hs : s = s.takeWhile pyWs ++ skipWs s := (List.takeWhile_append_dropWhile pyWs s).symm
  rw [List.append_assoc, ← h]
  exact hs

lemma skipWs_decomp (s : Str) : s = s.takeWhile pyWs ++ skipWs s :=
  (List.takeWhile_append_dropWhile pyWs s).symm

lemma parsers_split : ∀ fuel : Nat,
    (∀ s v rest, parseValue fuel s = some (v, rest) →
      ∃ q c, s = q ++ c :: rest ∧ c ≠ btick) ∧
    (∀ s xs rest, parseItems fuel s = some (xs, rest) → ∃ q, s = q ++ ']' :: rest) ∧
    (∀ s ms rest, parseMembers fuel s = some (ms, rest) → ∃ q, s = q ++ '}' :: rest) := by
  intro fuel
  induction fuel with
  | zero =>
    refine ⟨?_, ?_, ?_⟩ <;> intro s a rest h <;>
      simp [parseValue, parseItems, parseMembers] at h
  | succ fuel ih =>
    obtain ⟨ihV, ihI, ihM⟩ := ih
    refine ⟨?_, ?_, ?_⟩
    · intro s v rest h
      simp only [parseValue] at h
      split at h
      · rename_i rest1 heq
        injection h with h1
        injection h1 with h1a h1b
        rw [h1b] at heq
        exact ⟨s.takeWhile pyWs ++ ['n', 'u', 'l'], 'l',
          assemble_tw s _ 'l' rest (by rw [heq]; rfl), by decide⟩
      · rename_i rest1 heq
        injection h with h1
        injection h1 with h1a h1b
        rw [h1b] at heq
        exact ⟨s.takeWhile pyWs ++ ['t', 'r', 'u'], 'e',
          assemble_tw s _ 'e' rest (by rw [heq]; rfl), by decide⟩
      · rename_i rest1 heq
        injection h with h1
        injection h1 with h1a h1b
        rw [h1b] at heq
        exact ⟨s.takeWhile pyWs ++ ['f', 'a', 'l', 's'], 'e',
          assemble_tw s _ 'e' rest (by rw [heq]; rfl), by decide⟩
      · rename_i rest1 heq
        split at h
        · rename_i cont r heq2
          injection h with h1
          injection h1 with h1a h1b
          rw [h1b] at heq2
          obtain ⟨q, hq⟩ := parseStr_split rest1 cont rest heq2
          refine ⟨s.takeWhile pyWs ++ '"' :: q, '"',
            assemble_tw s _ '"' rest ?_, by decide⟩
          rw [heq, hq]
          rfl
        · exact absurd h (by simp)
      · rename_i rest1 heq
        split at h
        · rename_i r heq2
          injection h with h1
          injection h1 with h1a h1b
          rw [h1b] at heq2
          refine ⟨s.takeWhile pyWs ++ '[' :: rest1.takeWhile pyWs, ']',
            assemble_tw s _ ']' rest ?_, by decide⟩
          rw [heq]
          have h2 := skipWs_decomp rest1
          rw [heq2] at h2
          conv_lhs => rw [h2]
          rfl
        · split at h
          · rename_i xs r2 heq3
            injection h with h1
            injection h1 with h1a h1b
            rw [h1b] at heq3
            obtain ⟨qI, hqI⟩ := ihI (skipWs rest1) xs rest heq3
            refine ⟨s.takeWhile pyWs ++ '[' :: (rest1.takeWhile pyWs ++ qI), ']',
              assemble_tw s _ ']' rest ?_, by decide⟩
            rw [heq]
            have h2 := skipWs_decomp rest1
            rw [hqI] at h2
            conv_lhs => rw [h2]
            simp [List.append_assoc]
          · exact absurd h (by simp)
      · rename_i rest1 heq
        split at h
        · rename_i r heq2
          injection h with h1
          injection h1 with h1a h1b
          rw [h1b] at heq2
          refine ⟨s.takeWhile pyWs ++ '{' :: rest1.takeWhile pyWs, '}',
            assemble_tw s _ '}' rest ?_, by decide⟩
          rw [heq]
          have h2 := skipWs_decomp rest1
          rw [heq2] at h2
          conv_lhs => rw [h2]
          rfl
        · split at h
          · rename_i ms r2 heq3
            injection h with h1
            injection h1 with h1a h1b
            rw [h1b] at heq3
            obtain ⟨qM, hqM⟩ := ihM (skipWs rest1) ms rest heq3
            refine ⟨s.takeWhile pyWs ++ '{' :: (rest1.takeWhile pyWs ++ qM), '}',
              assemble_tw s _ '}' rest ?_, by decide⟩
            rw [heq]
            have h2 := skipWs_decomp rest1
            rw [hqM] at h2
            conv_lhs => rw [h2]
            simp [List.append_assoc]
          · exact absurd h (by simp)
      · split at h
        · rename_i lex r heq2
          injection h with h1
          injection h1 with h1a h1b
          rw [h1b] at heq2
          obtain ⟨q, d, hqd, hdig⟩ := parseNum_split (skipWs s) lex rest heq2
          refine ⟨s.takeWhile pyWs ++ q, d, assemble_tw s q d rest hqd, ?_⟩
          intro hb
          rw [hb] at hdig
          exact absurd hdig (by decide)
        · exact absurd h (by simp)
    · intro s xs rest h
      simp only [parseItems] at h
      split at h
      · exact absurd h (by simp)
      · rename_i v r heq
        obtain ⟨qv, cv, hsv, hcv⟩ := ihV s v r heq
        split at h
        · rename_i r2 heqc
          split at h
          · rename_i xs2 r3 heq3
            injection h with h1
            injection h1 with h1a h1b
            rw [h1b] at heq3
            obtain ⟨qi, hqi⟩ := ihI r2 xs2 rest heq3
            refine ⟨qv ++ cv :: (r.takeWhile pyWs ++ ',' :: qi), ?_⟩
            have h2 := skipWs_decomp r
            rw [heqc, hqi] at h2
            rw [hsv]
            conv_lhs => rw [h2]
            simp [List.append_assoc]
          · exact absurd h (by simp)
        · rename_i r2 heqc
          injection h with h1
          injection h1 with h1a h1b
          rw [h1b] at heqc
          refine ⟨qv ++ cv :: r.takeWhile pyWs, ?_⟩
          have h2 := skipWs_decomp r
          rw [heqc] at h2
          rw [hsv]
          conv_lhs => rw [h2]
          simp [List.append_assoc]
        · exact absurd h (by simp)
    · intro s ms rest h
      simp only [parseMembers] at h
      split at h
      · rename_i restK heq
        split at h
        · exact absurd h (by simp)
        · rename_i k r heq2
          obtain ⟨qk, hqk⟩ := parseStr_split restK k r heq2
          split at h
          · rename_i r2 heq3
            split at h
            · exact absurd h (by simp)
            · rename_i v2 r3 heq4
              obtain ⟨qv, cv, hqv, hcv⟩ := ihV r2 v2 r3 heq4
              split at h
              · rename_i r4 heq5
                split at h
                · rename_i ms2 r5 heq6
                  injection h with h1
                  injection h1 with h1a h1b
                  rw [h1b] at heq6
                  obtain ⟨qm, hqm⟩ := ihM r4 ms2 rest heq6
                  refine ⟨s.takeWhile pyWs ++ '"' :: (qk ++ '"' :: (r.takeWhile pyWs ++
                    ':' :: (qv ++ cv :: (r3.takeWhile pyWs ++ ',' :: qm)))), ?_⟩
                  have h2 := skipWs_decomp s
                  have h3 := skipWs_decomp r
                  have h4 := skipWs_decomp r3
                  rw [heq] at h2
                  rw [heq3] at h3
                  rw [heq5] at h4
                  rw [hqm] at h4
                  rw [h4] at hqv
                  rw [hqv] at h3
                  rw [h3] at hqk
                  rw [hqk] at h2
                  conv_lhs => rw [h2]
                  simp [List.append_assoc]
                · exact absurd h (by simp)
              · rename_i r4 heq5
                injection h with h1
                injection h1 with h1a h1b
                rw [h1b] at heq5
                refine ⟨s.takeWhile pyWs ++ '"' :: (qk ++ '"' :: (r.takeWhile pyWs ++
                  ':' :: (qv ++ cv :: r3.takeWhile pyWs))), ?_⟩
                have h2 := skipWs_decomp s
                have h3 := skipWs_decomp r
                have h4 := skipWs_decomp r3
                rw [heq] at h2
                rw [heq3] at h3
                rw [heq5] at h4
                rw [h4] at hqv
                rw [hqv] at h3
                rw [h3] at hqk
                rw [hqk] at h2
                conv_lhs => rw [h2]
                simp [List.append_assoc]
              · exact absurd h (by simp)
          · exact absurd h (by simp)
      · exact absurd h (by simp)

lemma loads_split (s : Str) (v : Json) (h : loads s = some v) :
    ∃ q c rest, s = q ++ c :: rest ∧ c ≠ btick ∧ ∀ x ∈ rest, pyWs x = true := by
  rw [loads] at h
  split at h
  · rename_i v0 rest heq
    split at h
    · rename_i hws
      obtain ⟨q, c, hqc, hcb⟩ := (parsers_split (2 * s.length + 2)).1 s v0 rest heq
      exact ⟨q, c, rest, hqc, hcb, by rwa [skipWs, List.dropWhile_eq_nil_iff] at hws⟩
    · exact absurd h (by simp)
  · exact absurd h (by simp)

lemma loads_getLast (s : Str) (v : Json) (h : loads s = some v) :
    s.getLast? ≠ some btick := by
  obtain ⟨q, c, rest, hqc, hcb, hws⟩ := loads_split s v h
  rcases List.eq_nil_or_concat' rest with rfl | ⟨L, b, rfl⟩
  · intro hcon
    rw [hqc, List.getLast?_append_cons] at hcon
    simp only [List.getLast?_singleton, Option.some.injEq] at hcon
    exact hcb hcon
  · intro hcon
    rw [hqc, List.getLast?_append_cons,
      show c :: (L ++ [b]) = (c :: L) ++ [b] from rfl, List.getLast?_concat] at hcon
    have hb : pyWs b = true := hws b (by simp)
    injection hcon with hbb
    rw [hbb] at hb
    exact absurd hb (by decide)

lemma jsonTag_head (r : Str) (h : jsonTag.isPrefixOf r = true) : r.head? = some 'j' := by
  obtain ⟨t, rfl⟩ := (isPrefixOf_iff jsonTag r).mp h
  rfl

lemma loads_pyStrip_head_j (P : Str) (h : P.head? = some 'j') :
    loads (pyStrip P) = none := by
  have h1 := pyStrip_head h (by decide)
  rcases hp : pyStrip P with _ | ⟨c, t⟩
  · rfl
  · rw [hp] at h1
    injection h1 with h1a
    rw [h1a]
    rfl

lemma not_getLast_btick_of_loads (P : Str) (w : Json) (h : loads (pyStrip P) = some w) :
    P.getLast? ≠ some btick := by
  intro hb
  exact loads_getLast _ _ h (pyStrip_getLast hb (by decide))

lemma containsSub_fence_cons (c : Char) (r : Str) (hc : c ≠ btick) :
    containsSub fence (c :: r) = containsSub fence r := by
  rw [containsSub]
  have hp : fence.isPrefixOf (c :: r) = false := by
    rw [fence_eq]
    cases hbe : btick == c with
    | false => simp [List.isPrefixOf, hbe]
    | true => exact absurd (beq_iff_eq.mp hbe).symm hc
  rw [hp, Bool.false_or]

lemma getLast_prepend_ne_btick (x P : Str) (hx : x.getLast? ≠ some btick)
    (hP : P.getLast? ≠ some btick) : (x ++ P).getLast? ≠ some btick := by
  rcases List.eq_nil_or_concat' P with rfl | ⟨L, b, rfl⟩
  · rwa [List.append_nil]
  · rw [← List.append_assoc, List.getLast?_concat]
    rwa [List.getLast?_concat] at hP

lemma parseLLM_unfenced (P : Str) (hnf : containsSub fence P = false) :
    parseLLM P = loads (pyStrip P) := by
  rw [parseLLM, stripFence, if_neg (by simp [containsSub_pyStrip fence P hnf]), pyStrip_idem]

lemma parseLLM_two_fences (s a b c : Str)
    (hs : pyStrip s = a ++ (fence ++ (b ++ (fence ++ c))))
    (hca : containsSub fence a = false) (hla : a.getLast? ≠ some btick)
    (hcb : containsSub fence b = false) (hlb : b.getLast? ≠ some btick) :
    parseLLM s = loads (pyStrip (if jsonTag.isPrefixOf b then b.drop 4 else b)) := by
  have hct : containsSub fence (a ++ (fence ++ (b ++ (fence ++ c)))) = true := by
    have h0 := contains_of_middle fence a (b ++ (fence ++ c))
    simpa [List.append_assoc] using h0
  rw [parseLLM, hs, stripFence, if_pos hct, afterFirst_fence_decomp a _ hca hla,
    beforeFirst_fence_decomp b c hcb hlb]

lemma contains_json_tag (P : Str) :
    containsSub fence (strL "json " ++ P) = containsSub fence P := by
  show containsSub fence ('j' :: 's' :: 'o' :: 'n' :: ' ' :: P) = containsSub fence P
  rw [containsSub_fence_cons _ _ (by decide), containsSub_fence_cons _ _ (by decide),
    containsSub_fence_cons _ _ (by decide), containsSub_fence_cons _ _ (by decide),
    containsSub_fence_cons _ _ (by decide)]

/-- C5 counterexample: the payload `["```", 1, "```"]` is valid JSON (its
strings contain the fence marker), yet wrapping it in code fences changes
the parse result: the fenced form fails to parse while the unwrapped form
parses (as the fragment between the two inner fences, not as the array). -/
theorem c5_counterexample_fence_in_payload :
    loads (pyStrip (strL "[\"```\", 1, \"```\"]")) =
      some (Json.arr [Json.str (strL "```"), Json.num (strL "1"), Json.str (strL "```")]) ∧
    parseLLM (fence ++ strL "[\"```\", 1, \"```\"]" ++ fence) ≠
      parseLLM (strL "[\"```\", 1, \"```\"]") := by
  refine ⟨rfl, ?_⟩
  intro h
  rw [show parseLLM (fence ++ strL "[\"```\", 1, \"```\"]" ++ fence) = none from rfl] at h
  rw [show parseLLM (strL "[\"```\", 1, \"```\"]") = some (Json.str (strL ", 1, ")) from rfl] at h
  exact Option.noConfusion h

/-- C5 (amended): for every JSON payload `P` that does not itself contain
the code-fence marker, the content-generation parse step yields the same
parsed value on `P` wrapped in code fences (with or without a leading
`json` tag) as on the unwrapped `P`. -/
theorem c5_fence_wrapped_parse (P : Str) (w : Json)
    (hw : loads (pyStrip P) = some w) (hnf : containsSub fence P = false) :
    parseLLM (fence ++ P ++ fence) = some w ∧
    parseLLM (strL "```json " ++ P ++ fence) = some w ∧
    parseLLM P = some w := by
  have hlast : P.getLast? ≠ some btick := not_getLast_btick_of_loads P w hw
  have hjP : jsonTag.isPrefixOf P = false := by
    cases hjt : jsonTag.isPrefixOf P with
    | false => rfl
    | true => exact absurd hw (by rw [loads_pyStrip_head_j P (jsonTag_head P hjt)]; simp)
  refine ⟨?_, ?_, ?_⟩
  · have hid : pyStrip (fence ++ P ++ fence) = fence ++ P ++ fence := by
      apply pyStrip_eq_self (c := btick) (d := btick)
      · rw [fence_eq]; rfl
      · decide
      · rw [List.append_assoc,
          List.getLast?_append_of_ne_nil _ (by simp [fence_eq] : (P ++ fence : Str) ≠ []),
          List.getLast?_append_of_ne_nil _ (by simp [fence_eq] : (fence : Str) ≠ []),
          fence_eq]
        rfl
      · decide
    have h2f := parseLLM_two_fences (fence ++ P ++ fence) [] P []
      (by rw [hid]; simp [List.append_assoc]) rfl (by simp) hnf hlast
    rw [hjP] at h2f
    simp only [Bool.false_eq_true, if_false] at h2f
    rw [h2f]
    exact hw
  · have hid : pyStrip (strL "```json " ++ P ++ fence) = strL "```json " ++ P ++ fence := by
      apply pyStrip_eq_self (c := btick) (d := btick)
      · rfl
      · decide
      · rw [List.append_assoc,
          List.getLast?_append_of_ne_nil _ (by simp [fence_eq] : (P ++ fence : Str) ≠ []),
          List.getLast?_append_of_ne_nil _ (by simp [fence_eq] : (fence : Str) ≠ []),
          fence_eq]
        rfl
      · decide
    have hcb : containsSub fence (strL "json " ++ P) = false := by
      rw [contains_json_tag P]
      exact hnf
    have hlb : (strL "json " ++ P).getLast? ≠ some btick :=
      getLast_prepend_ne_btick (strL "json ") P (by decide) hlast
    have h2f := parseLLM_two_fences (strL "```json " ++ P ++ fence) [] (strL "json " ++ P) []
      (by
        rw [hid, show strL "```json " = fence ++ strL "json " from rfl]
        simp [List.append_assoc])
      rfl (by simp) hcb hlb
    rw [show (if jsonTag.isPrefixOf (strL "json " ++ P) then (strL "json " ++ P).drop 4
        else (strL "json " ++ P)) = ' ' :: P from rfl] at h2f
    rw [pyStrip_cons_ws (by decide) P] at h2f
    rw [h2f]
    exact hw
  · rw [parseLLM_unfenced P hnf]
    exact hw

/-- Witness for `c5_fence_wrapped_parse` at the payload `{"a": 1}`. -/
theorem c5_fence_wrapped_parse_witness :
    loads (pyStrip (strL "\x7b\"a\": 1\x7d")) =
      some (Json.obj [(strL "a", Json.num (strL "1"))]) ∧
    containsSub fence (strL "\x7b\"a\": 1\x7d") = false ∧
    (parseLLM (fence ++ strL "\x7b\"a\": 1\x7d" ++ fence) =
      some (Json.obj [(strL "a", Json.num (strL "1"))]) ∧
    parseLLM (strL "```json " ++ strL "\x7b\"a\": 1\x7d" ++ fence) =
      some (Json.obj [(strL "a", Json.num (strL "1"))]) ∧
    parseLLM (strL "\x7b\"a\": 1\x7d") =
      some (Json.obj [(strL "a", Json.num (strL "1"))])) :=
  ⟨rfl, rfl, c5_fence_wrapped_parse (strL "\x7b\"a\": 1\x7d")
    (Json.obj [(strL "a", Json.num (strL "1"))]) rfl rfl⟩

/-- C9: the code-fence stripping is triggered by a "```" occurrence anywhere
in the (stripped) LLM reply, and the parsed text is exactly the segment
between the first and second occurrence — everything before and after is
dropped.  Consequently an unfenced reply that is itself valid JSON but
contains "```" inside a string field (second conjunct, concrete) is not
parsed as the whole payload: it fails to parse even though the full reply
is valid JSON. -/
theorem c9_fence_trigger_between_first_two :
    (∀ s a b c, pyStrip s = a ++ (fence ++ (b ++ (fence ++ c))) →
      containsSub fence a = false → a.getLast? ≠ some btick →
      containsSub fence b = false → b.getLast? ≠ some btick →
      jsonTag.isPrefixOf b = false →
      parseLLM s = loads (pyStrip b)) ∧
    (loads (pyStrip (strL "\x7b\"a\": \"x``` y\"\x7d")) =
      some (Json.obj [(strL "a", Json.str (strL "x``` y"))]) ∧
     parseLLM (strL "\x7b\"a\": \"x``` y\"\x7d") = none) := by
  constructor
  · intro s a b c hs hca hla hcb hlb hjb
    have h2f := parseLLM_two_fences s a b c hs hca hla hcb hlb
    rw [hjb] at h2f
    simp only [Bool.false_eq_true, if_false] at h2f
    exact h2f
  · exact ⟨rfl, rfl⟩

/-- Witness for `c9_fence_trigger_between_first_two` on a fenced reply with
prose before and after the fences. -/
theorem c9_fence_trigger_witness :
    pyStrip (strL "Sure! ```\x7b\"a\": 1\x7d``` Enjoy.") =
      strL "Sure! " ++ (fence ++ (strL "\x7b\"a\": 1\x7d" ++ (fence ++ strL " Enjoy."))) ∧
    containsSub fence (strL "Sure! ") = false ∧
    (strL "Sure! ").getLast? ≠ some btick ∧
    containsSub fence (strL "\x7b\"a\": 1\x7d") = false ∧
    (strL "\x7b\"a\": 1\x7d").getLast? ≠ some btick ∧
    jsonTag.isPrefixOf (strL "\x7b\"a\": 1\x7d") = false ∧
    parseLLM (strL "Sure! ```\x7b\"a\": 1\x7d``` Enjoy.") =
      loads (pyStrip (strL "\x7b\"a\": 1\x7d")) :=
  ⟨rfl, rfl, by decide, rfl, by decide, rfl,
    c9_fence_trigger_between_first_two.1 (strL "Sure! ```\x7b\"a\": 1\x7d``` Enjoy.")
      (strL "Sure! ") (strL "\x7b\"a\": 1\x7d") (strL " Enjoy.")
      rfl rfl (by decide) rfl (by decide) rfl⟩

/-! ## The subscribe pipeline claims -/

/-- C1: for every request whose store-append step fails, the subscribe
handler attempts no content-generation call and no delivery call, and
returns HTTP 500 with a detail message beginning "Sheet error". -/
theorem c1_sheet_error_aborts (env : Env) (email : Str) (h : env.appendFails = true) :
    (subscribe env email).generationAttempted = false ∧
    (subscribe env email).sendAttempted = false ∧
    (subscribe env email).response =
      SubscribeResponse.httpError 500 (strL "Sheet error: " ++ env.appendErr) ∧
    (strL "Sheet error").isPrefixOf (strL "Sheet error: " ++ env.appendErr) = true := by
  refine ⟨by simp [subscribe, h], by simp [subscribe, h], by simp [subscribe, h], ?_⟩
  rw [isPrefixOf_iff]
  exact ⟨strL ": " ++ env.appendErr,
    by rw [show strL "Sheet error: " = strL "Sheet error" ++ strL ": " from rfl,
      List.append_assoc]⟩

/-- Witness for `c1_sheet_error_aborts` on a concrete failing environment. -/
theorem c1_sheet_error_aborts_witness :
    envAppendFail.appendFails = true ∧
    ((subscribe envAppendFail (strL "x@y.z")).generationAttempted = false ∧
     (subscribe envAppendFail (strL "x@y.z")).sendAttempted = false ∧
     (subscribe envAppendFail (strL "x@y.z")).response =
       SubscribeResponse.httpError 500 (strL "Sheet error: " ++ envAppendFail.appendErr) ∧
     (strL "Sheet error").isPrefixOf (strL "Sheet error: " ++ envAppendFail.appendErr) = true) :=
  ⟨rfl, c1_sheet_error_aborts envAppendFail (strL "x@y.z") rfl⟩

/-- C2: if the append succeeds but the content-generation step fails, no
delivery call is attempted, the response is HTTP 500 with a detail message
beginning "LLM error", and the appended row remains in the sheet with an
empty sent mark. -/
theorem c2_llm_error_aborts (env : Env) (email e : Str)
    (hA : env.appendFails = false)
    (hG : generate_email_content env = Except.error e) :
    (subscribe env email).sendAttempted = false ∧
    (subscribe env email).response =
      SubscribeResponse.httpError 500 (strL "LLM error: " ++ e) ∧
    (strL "LLM error").isPrefixOf (strL "LLM error: " ++ e) = true ∧
    (subscribe env email).sheet = (save_email_to_sheet env.sheet0 email env.now).1 ∧
    (subscribe env email).sheet.getLast? =
      some [email, strftime_ymd_hms env.now, strL ""] := by
  refine ⟨by simp [subscribe, hA, hG], by simp [subscribe, hA, hG], ?_,
    by simp [subscribe, hA, hG], ?_⟩
  · rw [isPrefixOf_iff]
    exact ⟨strL ": " ++ e,
      by rw [show strL "LLM error: " = strL "LLM error" ++ strL ": " from rfl,
        List.append_assoc]⟩
  · simp [subscribe, hA, hG, save_email_to_sheet]

/-- Witness for `c2_llm_error_aborts` on a concrete environment whose LLM
call fails. -/
theorem c2_llm_error_aborts_witness :
    envLLMFail.appendFails = false ∧
    generate_email_content envLLMFail = Except.error (strL "HTTP 500") ∧
    ((subscribe envLLMFail (strL "x@y.z")).sendAttempted = false ∧
     (subscribe envLLMFail (strL "x@y.z")).response =
       SubscribeResponse.httpError 500 (strL "LLM error: " ++ strL "HTTP 500") ∧
     (strL "LLM error").isPrefixOf (strL "LLM error: " ++ strL "HTTP 500") = true ∧
     (subscribe envLLMFail (strL "x@y.z")).sheet =
       (save_email_to_sheet envLLMFail.sheet0 (strL "x@y.z") envLLMFail.now).1 ∧
     (subscribe envLLMFail (strL "x@y.z")).sheet.getLast? =
       some [strL "x@y.z", strftime_ymd_hms envLLMFail.now, strL ""]) :=
  ⟨rfl, rfl, c2_llm_error_aborts envLLMFail (strL "x@y.z") (strL "HTTP 500") rfl rfl⟩

lemma cellValue_append_last (E : Sheet) (row : Row) (c : Nat) :
    cellValue (E ++ [row]) (E ++ [row]).length c = row.getD (c - 1) [] := by
  rw [cellValue]
  have hrow : (E ++ [row]).getD ((E ++ [row]).length - 1) [] = row := by
    rw [List.length_append, List.getD_eq_getElem?_getD,
      show E.length + [row].length - 1 = E.length from rfl, List.getElem?_concat_length]
    rfl
  rw [hrow]

/-- C3: if append and generation succeed but delivery fails, the response is
HTTP 500 with a detail identifying the delivery stage ("Email send error"),
the appended row remains in the store, and its sent column is not marked. -/
theorem c3_send_error_row_unmarked (env : Env) (email e : Str) (content : Json)
    (hA : env.appendFails = false)
    (hG : generate_email_content env = Except.ok content)
    (hS : send_welcome_email env content = Except.error e) :
    (subscribe env email).response =
      SubscribeResponse.httpError 500 (strL "Email send error: " ++ e) ∧
    (strL "Email send error").isPrefixOf (strL "Email send error: " ++ e) = true ∧
    (subscribe env email).sheet = (save_email_to_sheet env.sheet0 email env.now).1 ∧
    (subscribe env email).sheet.getLast? =
      some [email, strftime_ymd_hms env.now, strL ""] ∧
    cellValue (subscribe env email).sheet
      (save_email_to_sheet env.sheet0 email env.now).2 3 ≠ strL "✓" := by
  have hsheet : (subscribe env email).sheet =
      (save_email_to_sheet env.sheet0 email env.now).1 := by
    simp [subscribe, hA, hG, hS]
  refine ⟨by simp [subscribe, hA, hG, hS], ?_, hsheet, ?_, ?_⟩
  · rw [isPrefixOf_iff]
    exact ⟨strL ": " ++ e,
      by rw [show strL "Email send error: " = strL "Email send error" ++ strL ": " from rfl,
        List.append_assoc]⟩
  · rw [hsheet]
    simp [save_email_to_sheet]
  · rw [hsheet]
    rw [show (save_email_to_sheet env.sheet0 email env.now).1 =
      ensure_header env.sheet0 ++ [[email, strftime_ymd_hms env.now, strL ""]] from rfl]
    rw [show (save_email_to_sheet env.sheet0 email env.now).2 =
      (ensure_header env.sheet0 ++ [[email, strftime_ymd_hms env.now, strL ""]]).length from rfl]
    rw [cellValue_append_last]
    intro hts
    have hts2 : (strL "" : Str) = strL "✓" := hts
    exact absurd hts2 (by decide)

/-- Witness for `c3_send_error_row_unmarked` on a concrete environment whose
mail API fails. -/
theorem c3_send_error_row_unmarked_witness :
    envSendFail.appendFails = false ∧
    generate_email_content envSendFail = Except.ok goodContent ∧
    send_welcome_email envSendFail goodContent = Except.error (strL "brevo down") ∧
    ((subscribe envSendFail (strL "x@y.z")).response =
       SubscribeResponse.httpError 500 (strL "Email send error: " ++ strL "brevo down") ∧
     (strL "Email send error").isPrefixOf
       (strL "Email send error: " ++ strL "brevo down") = true ∧
     (subscribe envSendFail (strL "x@y.z")).sheet =
       (save_email_to_sheet envSendFail.sheet0 (strL "x@y.z") envSendFail.now).1 ∧
     (subscribe envSendFail (strL "x@y.z")).sheet.getLast? =
       some [strL "x@y.z", strftime_ymd_hms envSendFail.now, strL ""] ∧
     cellValue (subscribe envSendFail (strL "x@y.z")).sheet
       (save_email_to_sheet envSendFail.sheet0 (strL "x@y.z") envSendFail.now).2 3 ≠
       strL "✓") :=
  ⟨rfl, rfl, rfl,
    c3_send_error_row_unmarked envSendFail (strL "x@y.z") (strL "brevo down") goodContent
      rfl rfl rfl⟩

/-- C4: when append, generation and delivery all succeed, a failure of the
final mark-sent step is swallowed: the handler still returns HTTP 200 with
body `{"status": "success", "message": "Subscribed successfully!"}`, the
same response as when marking succeeds. -/
theorem c4_mark_failure_swallowed (env : Env) (email : Str) (content : Json)
    (hA : env.appendFails = false)
    (hG : generate_email_content env = Except.ok content)
    (hS : send_welcome_email env content = Except.ok ())
    (hM : env.markFails = true) :
    (subscribe env email).response = SubscribeResponse.ok
      [(strL "status", strL "success"), (strL "message", strL "Subscribed successfully!")] ∧
    (subscribe env email).response =
      (subscribe { env with markFails := false } email).response := by
  have hG' : generate_email_content { env with markFails := false } = Except.ok content := hG
  have hS' : send_welcome_email { env with markFails := false } content = Except.ok () := hS
  have hA' : ({ env with markFails := false } : Env).appendFails = false := hA
  have key : ∀ env2 : Env, env2.appendFails = false →
      generate_email_content env2 = Except.ok content →
      send_welcome_email env2 content = Except.ok () →
      (subscribe env2 email).response = SubscribeResponse.ok successBody := by
    intro env2 h1 h2 h3
    simp [subscribe, h1, h2, h3]
  constructor
  · exact key env hA hG hS
  · rw [key env hA hG hS, key { env with markFails := false } hA' hG' hS']

/-- Witness for `c4_mark_failure_swallowed` on a concrete environment whose
mark-sent call fails. -/
theorem c4_mark_failure_swallowed_witness :
    envMarkFail.appendFails = false ∧
    generate_email_content envMarkFail = Except.ok goodContent ∧
    send_welcome_email envMarkFail goodContent = Except.ok () ∧
    envMarkFail.markFails = true ∧
    ((subscribe envMarkFail (strL "x@y.z")).response = SubscribeResponse.ok
       [(strL "status", strL "success"),
        (strL "message", strL "Subscribed successfully!")] ∧
     (subscribe envMarkFail (strL "x@y.z")).response =
       (subscribe { envMarkFail with markFails := false } (strL "x@y.z")).response) :=
  ⟨rfl, rfl, rfl, rfl,
    c4_mark_failure_swallowed envMarkFail (strL "x@y.z") goodContent rfl rfl rfl rfl⟩

/-- C7: the content-generation step performs no schema validation beyond
JSON parsing: any reply parsing to a JSON object is returned successfully,
whatever its keys; if an expected key (subject, heading, body,
unsubscribe_note) is missing, the failure only happens later, inside the
send step's rendering accesses. -/
theorem c7_no_schema_validation (env : Env) (reply : Str) (kvs : List (Str × Json))
    (hR : env.llmResult = Except.ok reply)
    (hP : parseLLM reply = some (Json.obj kvs)) :
    generate_email_content env = Except.ok (Json.obj kvs) ∧
    (∀ k, k ∈ [strL "subject", strL "heading", strL "body", strL "unsubscribe_note"] →
      lookupLast kvs k = none →
      ∃ e, send_welcome_email env (Json.obj kvs) = Except.error e) := by
  constructor
  · simp [generate_email_content, hR, hP]
  · intro k hk hmiss
    rcases h1 : lookupLast kvs (strL "heading") with _ | v1
    · exact ⟨strL "KeyError: heading", by simp [send_welcome_email, pySubscript, h1]⟩
    rcases h2 : lookupLast kvs (strL "body") with _ | v2
    · exact ⟨strL "KeyError: body", by simp [send_welcome_email, pySubscript, h1, h2]⟩
    rcases h3 : lookupLast kvs (strL "unsubscribe_note") with _ | v3
    · exact ⟨strL "KeyError: unsubscribe_note",
        by simp [send_welcome_email, pySubscript, h1, h2, h3]⟩
    rcases h4 : lookupLast kvs (strL "subject") with _ | v4
    · exact ⟨strL "KeyError: subject",
        by simp [send_welcome_email, pySubscript, h1, h2, h3, h4]⟩
    · exfalso
      simp only [List.mem_cons, List.not_mem_nil, or_false] at hk
      rcases hk with rfl | rfl | rfl | rfl
      · rw [hmiss] at h4; exact Option.noConfusion h4
      · rw [hmiss] at h1; exact Option.noConfusion h1
      · rw [hmiss] at h2; exact Option.noConfusion h2
      · rw [hmiss] at h3; exact Option.noConfusion h3

/-- Witness for `c7_no_schema_validation`: a reply `{"foo": 1}` with every
expected key missing is accepted by generate, and send fails on it. -/
theorem c7_no_schema_validation_witness :
    envMissingKeys.llmResult = Except.ok (strL "\x7b\"foo\": 1\x7d") ∧
    parseLLM (strL "\x7b\"foo\": 1\x7d") =
      some (Json.obj [(strL "foo", Json.num (strL "1"))]) ∧
    (generate_email_content envMissingKeys =
       Except.ok (Json.obj [(strL "foo", Json.num (strL "1"))]) ∧
     (∀ k, k ∈ [strL "subject", strL "heading", strL "body", strL "unsubscribe_note"] →
       lookupLast [(strL "foo", Json.num (strL "1"))] k = none →
       ∃ e, send_welcome_email envMissingKeys
         (Json.obj [(strL "foo", Json.num (strL "1"))]) = Except.error e)) :=
  ⟨rfl, rfl,
    c7_no_schema_validation envMissingKeys (strL "\x7b\"foo\": 1\x7d")
      [(strL "foo", Json.num (strL "1"))] rfl rfl⟩

/-- C10: generate accepts any JSON value, not only objects; on a non-object
value the pipeline then fails in the delivery step, surfaced as an HTTP 500
whose detail begins "Email send error". -/
theorem c10_non_object_reply (env : Env) (email reply : Str) (v : Json)
    (hA : env.appendFails = false)
    (hR : env.llmResult = Except.ok reply)
    (hP : parseLLM reply = some v)
    (hNO : isJsonObj v = false) :
    generate_email_content env = Except.ok v ∧
    (subscribe env email).response =
      SubscribeResponse.httpError 500
        (strL "Email send error: " ++ strL "KeyError: heading") ∧
    (strL "Email send error").isPrefixOf
      (strL "Email send error: " ++ strL "KeyError: heading") = true := by
  have hgen : generate_email_content env = Except.ok v := by
    simp [generate_email_content, hR, hP]
  have hsend : send_welcome_email env v = Except.error (strL "KeyError: heading") := by
    cases v with
    | obj kvs => exact absurd hNO (by simp [isJsonObj])
    | null => simp [send_welcome_email, pySubscript]
    | bool b => simp [send_welcome_email, pySubscript]
    | num s => simp [send_welcome_email, pySubscript]
    | str s => simp [send_welcome_email, pySubscript]
    | arr xs => simp [send_welcome_email, pySubscript]
  refine ⟨hgen, by simp [subscribe, hA, hgen, hsend], ?_⟩
  rw [isPrefixOf_iff]
  exact ⟨strL ": " ++ strL "KeyError: heading",
    by rw [show strL "Email send error: " = strL "Email send error" ++ strL ": " from rfl,
      List.append_assoc]⟩

/-- Witness for `c10_non_object_reply`: the reply `[1, 2]` parses as a JSON
array, generate returns it, and the handler fails in the delivery step. -/
theorem c10_non_object_reply_witness :
    envArrayReply.appendFails = false ∧
    envArrayReply.llmResult = Except.ok (strL "[1, 2]") ∧
    parseLLM (strL "[1, 2]") =
      some (Json.arr [Json.num (strL "1"), Json.num (strL "2")]) ∧
    isJsonObj (Json.arr [Json.num (strL "1"), Json.num (strL "2")]) = false ∧
    (generate_email_content envArrayReply =
       Except.ok (Json.arr [Json.num (strL "1"), Json.num (strL "2")]) ∧
     (subscribe envArrayReply (strL "x@y.z")).response =
       SubscribeResponse.httpError 500
         (strL "Email send error: " ++ strL "KeyError: heading") ∧
     (strL "Email send error").isPrefixOf
       (strL "Email send error: " ++ strL "KeyError: heading") = true) :=
  ⟨rfl, rfl, rfl, rfl,
    c10_non_object_reply envArrayReply (strL "x@y.z") (strL "[1, 2]")
      (Json.arr [Json.num (strL "1"), Json.num (strL "2")]) rfl rfl rfl rfl⟩

/-! ## The spreadsheet claims -/

lemma ensure_header_eq (sheet : Sheet) :
    ensure_header sheet =
      (if row_values sheet 1 = [] ∨ (row_values sheet 1).head? ≠ some (strL "Email")
        then headerRow :: sheet else sheet) := by
  rw [ensure_header]
  by_cases hh : (row_values sheet 1).head? = some (strL "Email")
  · have hcond : ¬(row_values sheet 1 = [] ∨
        (row_values sheet 1).head? ≠ some (strL "Email")) := by
      rw [not_or]
      exact ⟨fun h0 => by rw [h0] at hh; exact Option.noConfusion hh, fun hne => hne hh⟩
    rw [if_pos hh, if_neg hcond]
  · have hcond : row_values sheet 1 = [] ∨
        (row_values sheet 1).head? ≠ some (strL "Email") := Or.inr hh
    rw [if_neg hh, if_pos hcond]
    simp [insert_row]

/-- C6: append ensures the header row is present at row 1 exactly when row 1
is empty or its first cell is not "Email", then appends one row
`[email, timestamp, ""]` with the timestamp formatted by
`strftime("%Y-%m-%d %H:%M:%S")`, and returns the new total row count. -/
theorem c6_append_row_spec (sheet : Sheet) (email : Str) (now : DateTime) :
    (save_email_to_sheet sheet email now).1 =
      (if row_values sheet 1 = [] ∨ (row_values sheet 1).head? ≠ some (strL "Email")
        then headerRow :: sheet else sheet) ++
        [[email, strftime_ymd_hms now, strL ""]] ∧
    (save_email_to_sheet sheet email now).2 = (save_email_to_sheet sheet email now).1.length := by
  constructor
  · rw [show (save_email_to_sheet sheet email now).1 =
      ensure_header sheet ++ [[email, strftime_ymd_hms now, strL ""]] from rfl,
      ensure_header_eq]
  · rfl

lemma getD_set_eq_of_lt {α : Type} (l : List α) (i : Nat) (a d : α) (h : i < l.length) :
    (l.set i a).getD i d = a := by
  rw [List.getD_eq_getElem?_getD, List.getElem?_set_eq_of_lt a h]
  rfl

lemma getD_set_ne_idx {α : Type} (l : List α) (i j : Nat) (a d : α) (h : i ≠ j) :
    (l.set i a).getD j d = l.getD j d := by
  rw [List.getD_eq_getElem?_getD, List.getElem?_set_ne h, ← List.getD_eq_getElem?_getD]

/-- C8: for a row index within the sheet whose row has a third column,
markSent writes a check mark into the cell at column 3 of that row and
leaves every other cell (and the sheet's shape) unchanged. -/
theorem c8_mark_sent_frame (sheet : Sheet) (r : Nat)
    (h1 : 1 ≤ r) (h2 : r ≤ sheet.length) (h3 : 3 ≤ (row_values sheet r).length) :
    cellValue (mark_row_sent sheet r) r 3 = strL "✓" ∧
    (mark_row_sent sheet r).length = sheet.length ∧
    (∀ r' c', 1 ≤ r' → 1 ≤ c' → ¬(r' = r ∧ c' = 3) →
      cellValue (mark_row_sent sheet r) r' c' = cellValue sheet r' c') := by
  have hidx : r - 1 < sheet.length := by omega
  have hrow : 2 < (sheet.getD (r - 1) []).length := by
    rw [row_values] at h3
    omega
  refine ⟨?_, by simp [mark_row_sent, update_cell], ?_⟩
  · simp only [cellValue, mark_row_sent, update_cell]
    rw [getD_set_eq_of_lt _ _ _ _ hidx, getD_set_eq_of_lt _ _ _ _ hrow]
  · intro r' c' hr' hc' hne
    simp only [cellValue, mark_row_sent, update_cell]
    by_cases hrr : r' = r
    · subst hrr
      have hc3 : c' ≠ 3 := fun hcc => hne ⟨rfl, hcc⟩
      rw [getD_set_eq_of_lt _ _ _ _ hidx,
        getD_set_ne_idx _ 2 (c' - 1) _ _ (by omega)]
    · rw [getD_set_ne_idx _ (r - 1) (r' - 1) _ _ (by omega)]

/-- Witness for `c8_mark_sent_frame` on the sample sheet at row 2. -/
theorem c8_mark_sent_frame_witness :
    1 ≤ 2 ∧ 2 ≤ sampleSheet.length ∧ 3 ≤ (row_values sampleSheet 2).length ∧
    (cellValue (mark_row_sent sampleSheet 2) 2 3 = strL "✓" ∧
     (mark_row_sent sampleSheet 2).length = sampleSheet.length ∧
     (∀ r' c', 1 ≤ r' → 1 ≤ c' → ¬(r' = 2 ∧ c' = 3) →
       cellValue (mark_row_sent sampleSheet 2) r' c' = cellValue sampleSheet r' c')) :=
  ⟨by decide, by decide, by decide,
    c8_mark_sent_frame sampleSheet 2 (by decide) (by decide) (by decide)⟩
